import Mathlib

/-!
Shallow embedding of the WRF_show_domain plotting helpers.

Coordinates are modelled as rationals. Third-party library objects
(matplotlib axes/figures, shapely geometries, cartopy projections, NetCDF
files) are modelled by the data the repository's code actually reads from
them: a matplotlib `Bbox` by its four extents, a shapely `LineString` by
its list of vertices, a projection by a point-to-point function, a NetCDF
file by the fields the code extracts.
-/

namespace WRFShowDomain

/-- A 2-D point (a vertex of a shapely `LineString` or a projected coordinate). -/
structure Pt where
  x : ℚ
  y : ℚ
deriving DecidableEq

/-- The `.bounds` of a shapely geometry: `(minx, miny, maxx, maxy)`. -/
structure Bounds where
  minx : ℚ
  miny : ℚ
  maxx : ℚ
  maxy : ℚ
deriving DecidableEq

/-- `line_string.bounds` for a `LineString` given by its vertex list.
Shapely computes the componentwise min/max over the coordinates.
(An empty `LineString` has empty bounds in shapely; the `[]` case is junk
and is never used by the repository, which always passes a closed
rectangle outline.) -/
def lsBounds : List Pt → Bounds
  | [] => ⟨0, 0, 0, 0⟩
  | p :: rest =>
      rest.foldl
        (fun b q => ⟨min b.minx q.x, min b.miny q.y, max b.maxx q.x, max b.maxy q.y⟩)
        ⟨p.x, p.y, p.x, p.y⟩

/-- `find_side.py`: given a (rectangular) `LineString` and a side name,
return the two-point segment for that side of the bounding rectangle,
or raise `ValueError` for an invalid side name. -/
def find_side (line_string : List Pt) (side : String) : Except String (Pt × Pt) :=
  if side ≠ "left" ∧ side ≠ "right" ∧ side ≠ "bottom" ∧ side ≠ "top" then
    Except.error ("Invalid side: " ++ side)
  else
    let b := lsBounds line_string
    if side = "left" then Except.ok (⟨b.minx, b.miny⟩, ⟨b.minx, b.maxy⟩)
    else if side = "right" then Except.ok (⟨b.maxx, b.miny⟩, ⟨b.maxx, b.maxy⟩)
    else if side = "bottom" then Except.ok (⟨b.minx, b.miny⟩, ⟨b.maxx, b.miny⟩)
    else Except.ok (⟨b.minx, b.maxy⟩, ⟨b.maxx, b.maxy⟩)

/-- A matplotlib `Bbox`, as produced by `Bbox.from_extents(x0, y0, x1, y1)`. -/
structure Bbox where
  x0 : ℚ
  y0 : ℚ
  x1 : ℚ
  y1 : ℚ
deriving DecidableEq

/-- `matplotlib.transforms.Bbox.union`: componentwise min of the lower
corners and max of the upper corners. `Bbox.union([])` raises in
matplotlib; the `[]` case is junk and only nonempty lists are used
(`np.atleast_1d(ax)` of an `Axes` always has at least one element). -/
def bboxUnion : List Bbox → Bbox
  | [] => ⟨0, 0, 0, 0⟩
  | b :: rest =>
      rest.foldl
        (fun a c => ⟨min a.x0 c.x0, min a.y0 c.y0, max a.x1 c.x1, max a.y1 c.y1⟩) b

/-- `add_equal_axes.py`: the figure is modelled by the list of the bounding
boxes of its axes, the input `ax` by the list of position boxes of the axes
it contains.  Returns the figure state after the call together with the
result: the new axes' bounding box, or the `ValueError` message.  The
validation happens before `fig.add_axes`, so on the error path the figure
is unchanged. -/
def add_equal_axes (figAxes : List Bbox) (axs : List Bbox) (loc : String)
    (pad width : ℚ) : List Bbox × Except String Bbox :=
  let bbox := bboxUnion axs
  if loc = "left" then
    let nb : Bbox := ⟨bbox.x0 - pad - width, bbox.y0, bbox.x0 - pad, bbox.y1⟩
    (figAxes ++ [nb], Except.ok nb)
  else if loc = "right" then
    let nb : Bbox := ⟨bbox.x1 + pad, bbox.y0, bbox.x1 + pad + width, bbox.y1⟩
    (figAxes ++ [nb], Except.ok nb)
  else if loc = "bottom" then
    let nb : Bbox := ⟨bbox.x0, bbox.y0 - pad - width, bbox.x1, bbox.y0 - pad⟩
    (figAxes ++ [nb], Except.ok nb)
  else if loc = "top" then
    let nb : Bbox := ⟨bbox.x0, bbox.y1 + pad, bbox.x1, bbox.y1 + pad + width⟩
    (figAxes ++ [nb], Except.ok nb)
  else
    (figAxes, Except.error "Invalid location. Choose from 'left', 'right', 'bottom', or 'top'.")

/-- `numpy.linspace a b n`: `n` evenly spaced samples from `a` to `b`
inclusive (for `n ≥ 2`; matches numpy at the `n = 30` used by the code). -/
def linspace (a b : ℚ) (n : ℕ) : List ℚ :=
  (List.range n).map (fun i => a + (b - a) * i / (n - 1))

/-- The extent `(x0, x1, y0, y1)` returned by `ax.get_extent(ccrs.PlateCarree())`. -/
structure Extent where
  x0 : ℚ
  x1 : ℚ
  y0 : ℚ
  y1 : ℚ
deriving DecidableEq

/-- Intersection point of the closed segments `p1p2` and `q1q2`, by the
standard parametric formula, modelling shapely's `intersection` for a
transversal crossing.  Parallel (including collinear-overlap) segment
pairs yield `none`; the graticule/border pairs the repository intersects
cross transversally. -/
def segInter (p1 p2 q1 q2 : Pt) : Option Pt :=
  let d := (p2.x - p1.x) * (q2.y - q1.y) - (p2.y - p1.y) * (q2.x - q1.x)
  if d = 0 then none
  else
    let t := ((q1.x - p1.x) * (q2.y - q1.y) - (q1.y - p1.y) * (q2.x - q1.x)) / d
    let u := ((q1.x - p1.x) * (p2.y - p1.y) - (q1.y - p1.y) * (p2.x - p1.x)) / d
    if 0 ≤ t ∧ t ≤ 1 ∧ 0 ≤ u ∧ u ≤ 1 then
      some ⟨p1.x + t * (p2.x - p1.x), p1.y + t * (p2.y - p1.y)⟩
    else none

/-- The consecutive-vertex segments of a polyline. -/
def polySegs : List Pt → List (Pt × Pt)
  | a :: b :: rest => (a, b) :: polySegs (b :: rest)
  | _ => []

/-- `axis.intersection(line)` for the axis segment `a b` and the polyline
`line`: the crossing points, in polyline order.  Shapely returns a
geometry whose `.xy` lists these coordinates (a single `Point` in the
generic case the code handles). -/
def segPolyInter (a b : Pt) (line : List Pt) : List Pt :=
  (polySegs line).filterMap (fun s => segInter a b s.1 s.2)

/-- `n_steps` in `_lambert_ticks`. -/
def n_steps : ℕ := 30

/-- The body of the `for tick in ticks` loop of `_lambert_ticks`: construct
the graticule line for `tick`, project it pointwise (`transform_points`),
intersect with the border-side segment `axis`, and extract the recorded
coordinate.  `none` models the `[None]` recorded when the intersection is
empty (the geometry is falsy).  On a nonempty intersection the code takes
`tick_extractor(locs.xy)[0]`; the extractors used by the repository always
return a nonempty list there, so `head?` is `some`. -/
def tick_loc_of (axis : Pt × Pt) (extent : Extent)
    (line_constructor : ℚ → ℕ → Extent → List Pt) (projection : Pt → Pt)
    (tick_extractor : List ℚ × List ℚ → List ℚ) (tick : ℚ) : Option ℚ :=
  let xy := line_constructor tick n_steps extent
  let xyt := xy.map projection
  let locs := segPolyInter axis.1 axis.2 xyt
  if locs.isEmpty then none
  else (tick_extractor (locs.map Pt.x, locs.map Pt.y)).head?

/-- `_lambert_ticks` of `lambert_ticks.py`.  `outline` is the vertex list
of `ax.spines['geo']`, `extent` the PlateCarree extent, `projection` the
pointwise action of `ax.projection.transform_points(ccrs.Geodetic(), ...)`.
Validation of `tick_location` happens first; then the per-tick loop
(`tick_loc_of`), then the zip with a copy of `ticks` and the visibility
filter, falling back to `([], [])` when nothing is visible. -/
def lambert_ticks_impl (outline : List Pt) (extent : Extent) (ticks : List ℚ)
    (tick_location : String)
    (line_constructor : ℚ → ℕ → Extent → List Pt) (projection : Pt → Pt)
    (tick_extractor : List ℚ × List ℚ → List ℚ) :
    Except String (List ℚ × List ℚ) :=
  if tick_location ≠ "left" ∧ tick_location ≠ "bottom" then
    Except.error ("Invalid tick_location: " ++ tick_location)
  else
    match find_side outline tick_location with
    | Except.error e => Except.error e
    | Except.ok axis =>
      let tick_locations :=
        ticks.map (tick_loc_of axis extent line_constructor projection tick_extractor)
      let tick_labels := ticks
      let visible_ticks := (tick_locations.zip tick_labels).filter (fun p => p.1.isSome)
      Except.ok (visible_ticks.filterMap (fun p => p.1), visible_ticks.map (fun p => p.2))

/-- The `construct_line` closure of `lambert_xticks`: the vertical
graticule line of constant longitude `t`, sampled at `n` latitudes
between `extent[2]` and `extent[3]`. -/
def construct_line_x (t : ℚ) (n : ℕ) (extent : Extent) : List Pt :=
  (linspace extent.y0 extent.y1 n).map (fun y => ⟨t, y⟩)

/-- The `extract_x` closure of `lambert_xticks`: `xy[0]`, the x-coordinates. -/
def extract_x (xy : List ℚ × List ℚ) : List ℚ := xy.1

/-- The `construct_line` closure of `lambert_yticks`: the horizontal
graticule line of constant latitude `t`, sampled at `n` longitudes
between `extent[0]` and `extent[1]`. -/
def construct_line_y (t : ℚ) (n : ℕ) (extent : Extent) : List Pt :=
  (linspace extent.x0 extent.x1 n).map (fun x => ⟨x, t⟩)

/-- The `extract_y` closure of `lambert_yticks`: `xy[1]`, the y-coordinates. -/
def extract_y (xy : List ℚ × List ℚ) : List ℚ := xy.2

/-- The data the code of `get_data` extracts from one `geo_em` NetCDF file:
`getvar(f, 'lon')`, `getvar(f, 'lat')`, `get_cartopy(wrfin=f)` and
`getvar(f, 'HGT_M')`.  `Proj` is the (opaque) type of cartopy projections. -/
structure GeoFile (Proj : Type) where
  lon : List (List ℚ)
  lat : List (List ℚ)
  proj : Proj
  HGT_M : List (List ℚ)

/-- `get_data` of `read_data.py`.  The file system is a map from paths to
file contents.  Returns the `(lon, lat, proj, hgt)` tuple — with
`hgt = np.maximum(HGT_M, 0)` applied elementwise — together with the list
of files opened by the call (one `Dataset(file)` open). -/
def get_data {Proj : Type} (fs : String → GeoFile Proj) (file : String) :
    (List (List ℚ) × List (List ℚ) × Proj × List (List ℚ)) × List String :=
  let f := fs file
  ((f.lon, f.lat, f.proj, f.HGT_M.map (fun row => row.map (fun h => max h 0))), [file])

/-- `process_data` of `read_data.py`.  The two futures submitted to the
`ThreadPoolExecutor` run `get_data`, a pure read, on two distinct files,
so the executor is modelled by evaluating both submitted calls; the read
log concatenates the opens in submission order. -/
def process_data {Proj : Type} (fs : String → GeoFile Proj) (path : String) :
    (List (List ℚ) × List (List ℚ) × Proj × List (List ℚ) ×
      List (List ℚ) × List (List ℚ) × List (List ℚ)) × List String :=
  let file_d01 := path ++ "/geo_em.d01.nc"
  let file_d02 := path ++ "/geo_em.d02.nc"
  let r1 := get_data fs file_d01
  let r2 := get_data fs file_d02
  ((r1.1.1, r1.1.2.1, r1.1.2.2.1, r1.1.2.2.2, r2.1.1, r2.1.2.1, r2.1.2.2.2),
    r1.2 ++ r2.2)

/-- Modelled from the spec side of claim C4, for comparison with
`process_data`: the sequential composition of `get_data` on the two
files — the 7-tuple is `(lon, lat, proj, hgt)` from `geo_em.d01.nc`
followed by `(lon_1, lat_1, hgt_1)` from `geo_em.d02.nc`, the d02
projection discarded. -/
def process_data_sequential_spec {Proj : Type} (fs : String → GeoFile Proj)
    (path : String) :
    List (List ℚ) × List (List ℚ) × Proj × List (List ℚ) ×
      List (List ℚ) × List (List ℚ) × List (List ℚ) :=
  let d01 := (get_data fs (path ++ "/geo_em.d01.nc")).1
  let d02 := (get_data fs (path ++ "/geo_em.d02.nc")).1
  (d01.1, d01.2.1, d01.2.2.1, d01.2.2.2, d02.1, d02.2.1, d02.2.2.2)

/-- `np.nanmin` over a (flattened, NaN-free) height array; junk `0` on the
empty array, which the repository never produces. -/
def nanmin : List ℚ → ℚ
  | [] => 0
  | a :: rest => rest.foldl min a

/-- `np.nanmax` over a (flattened, NaN-free) height array. -/
def nanmax : List ℚ → ℚ
  | [] => 0
  | a :: rest => rest.foldl max a

/-- The colorbar-extension case split of `plot_domain` in `study_area.py`,
over the flattened height data; `none` models `extend = None`. -/
def plot_domain_extend (hgt : List ℚ) : Option String :=
  let hgt_min := nanmin hgt
  let hgt_max := nanmax hgt
  if hgt_max > 5000 ∧ hgt_min < 0 then some "both"
  else if hgt_max > 5000 then some "max"
  else if hgt_min < 0 then some "min"
  else none

/-- `TransformedBbox(bbox, transform)`: a bbox paired with the transform
it is viewed through (`Tr` is the opaque type of matplotlib transforms). -/
structure TransformedBbox (Tr : Type) where
  bbox : Bbox
  transform : Tr

/-- What a patch added by `mark_inset` is: the `BboxPatch` over the
transformed rectangle, or a `BboxConnector` between the inset's bbox and
that rectangle with its two corner codes; `other` stands for any patch
already present on an axes before the call. -/
inductive PatchKind (Tr : Type) where
  | bboxPatch : TransformedBbox Tr → PatchKind Tr
  | bboxConnector : Bbox → TransformedBbox Tr → ℤ → ℤ → PatchKind Tr
  | other : ℕ → PatchKind Tr

/-- A matplotlib patch, reduced to the fields `mark_inset` sets and the
claims observe (styling kwargs are omitted). -/
structure Patch (Tr : Type) where
  kind : PatchKind Tr
  clip_on : Bool

/-- `mark_inset` of `mark_inset.py`.  The two axes are modelled by their
patch lists; `insetViewLim` is `inset_axes.viewLim`, `parentTransData`
is `parent_axes.transData`, `insetBbox` is `inset_axes.bbox`.  Returns
the post-call patch lists of the parent and inset axes and the returned
triple.  Python mutates the connector objects with `set_clip_on(False)`
after `add_patch`; since the lists hold aliases, the post-call lists
contain the connectors with `clip_on = false`. -/
def mark_inset {Tr : Type} (parentPatches insetPatches : List (Patch Tr))
    (insetViewLim : Bbox) (parentTransData : Tr) (insetBbox : Bbox)
    (loc1a loc1b loc2a loc2b : ℤ) :
    List (Patch Tr) × List (Patch Tr) × (Patch Tr × Patch Tr × Patch Tr) :=
  let rect : TransformedBbox Tr := ⟨insetViewLim, parentTransData⟩
  let rect_patch : Patch Tr := ⟨PatchKind.bboxPatch rect, true⟩
  let parentAfter := parentPatches ++ [rect_patch]
  let connector1 : Patch Tr := ⟨PatchKind.bboxConnector insetBbox rect loc1a loc1b, false⟩
  let connector2 : Patch Tr := ⟨PatchKind.bboxConnector insetBbox rect loc2a loc2b, false⟩
  let insetAfter := insetPatches ++ [connector1, connector2]
  (parentAfter, insetAfter, (rect_patch, connector1, connector2))

/-- Whether a modelled call raised (`ValueError` in the source). -/
def isError {α : Type} : Except String α → Bool
  | Except.error _ => true
  | Except.ok _ => false

/-- A concrete rectangular plot border (a closed ring, as the vertex list
of `ax.spines['geo']` is), used to evaluate the theorems on explicit
inputs. -/
def outline0 : List Pt := [⟨0, 0⟩, ⟨10, 0⟩, ⟨10, 29⟩, ⟨0, 29⟩, ⟨0, 0⟩]

/-- A concrete PlateCarree extent matching `outline0` (with the identity
as the projection, the border and the extent rectangle coincide). -/
def extent0 : Extent := ⟨0, 10, 0, 29⟩

/-! ### Helper lemmas -/

theorem find_side_left (ls : List Pt) :
    find_side ls "left"
      = Except.ok (⟨(lsBounds ls).minx, (lsBounds ls).miny⟩,
          ⟨(lsBounds ls).minx, (lsBounds ls).maxy⟩) := rfl

theorem find_side_bottom (ls : List Pt) :
    find_side ls "bottom"
      = Except.ok (⟨(lsBounds ls).minx, (lsBounds ls).miny⟩,
          ⟨(lsBounds ls).maxx, (lsBounds ls).miny⟩) := rfl

theorem filterMap_eq_map_iget (f : ℚ → Option ℚ) (m : List ℚ)
    (h : ∀ t ∈ m, (f t).isSome) :
    m.filterMap f = m.map (fun t => (f t).iget) := by
  induction m with
  | nil => rfl
  | cons a m ih =>
    obtain ⟨v, hv⟩ := Option.isSome_iff_exists.mp (h a (List.mem_cons_self a m))
    simp only [List.filterMap_cons, List.map_cons, hv, Option.iget_some]
    exact congrArg (v :: ·) (ih fun t ht => h t (List.mem_cons_of_mem a ht))

/-- Structure of a successful `lambert_ticks_impl` run: the labels are the
input ticks whose loop body produced a visible location, and the locations
are those ticks' extracted values. -/
theorem lambert_ticks_ok_spec (outline : List Pt) (extent : Extent)
    (ticks : List ℚ) (t_loc : String)
    (lc : ℚ → ℕ → Extent → List Pt) (proj : Pt → Pt)
    (te : List ℚ × List ℚ → List ℚ) (locs labels : List ℚ)
    (h : lambert_ticks_impl outline extent ticks t_loc lc proj te
        = Except.ok (locs, labels)) :
    ∃ axis, find_side outline t_loc = Except.ok axis ∧
      labels = ticks.filter (fun t => (tick_loc_of axis extent lc proj te t).isSome) ∧
      locs = labels.map (fun t => (tick_loc_of axis extent lc proj te t).iget) := by
  unfold lambert_ticks_impl at h
  split at h
  · exact absurd h (by simp)
  · split at h
    · exact absurd h (by simp)
    · rename_i axis heq
      refine ⟨axis, heq, ?_⟩
      set f := tick_loc_of axis extent lc proj te with hf
      have hzip : (ticks.map f).zip ticks = ticks.map (fun t => (f t, t)) := by
        calc (ticks.map f).zip ticks
            = (ticks.map f).zip (ticks.map id) := by rw [List.map_id]
          _ = ticks.map (fun t => (f t, id t)) := List.zip_map' f id ticks
      have hinj := h
      rw [Except.ok.injEq, Prod.mk.injEq] at hinj
      obtain ⟨hlocs, hlabels⟩ := hinj
      rw [hzip, List.filter_map] at hlocs hlabels
      have hcomp :
          ((fun p : Option ℚ × ℚ => p.1.isSome) ∘ fun t => (f t, t))
            = fun t => (f t).isSome := rfl
      rw [hcomp] at hlocs hlabels
      have hlab : labels = ticks.filter (fun t => (f t).isSome) := by
        rw [← hlabels, List.map_map]
        have hsnd : ((fun p : Option ℚ × ℚ => p.2) ∘ fun t : ℚ => (f t, t)) = id := rfl
        rw [hsnd, List.map_id]
      refine ⟨hlab, ?_⟩
      rw [← hlocs, List.filterMap_map]
      have hfm :
          (Prod.fst ∘ fun t : ℚ => (f t, t)) = f := rfl
      rw [hfm, hlab]
      exact filterMap_eq_map_iget f _
        (fun t ht => (List.mem_filter.mp ht).2)

/-- For the extractors actually used (which return a nonempty list on a
nonempty intersection), the loop body records a location exactly when
the projected graticule line intersects the border side. -/
theorem tick_loc_of_isSome (axis : Pt × Pt) (extent : Extent)
    (lc : ℚ → ℕ → Extent → List Pt) (proj : Pt → Pt)
    (te : List ℚ × List ℚ → List ℚ)
    (hte : ∀ xs ys : List ℚ, xs ≠ [] → te (xs, ys) ≠ []) (t : ℚ) :
    (tick_loc_of axis extent lc proj te t).isSome
      = !(segPolyInter axis.1 axis.2 ((lc t n_steps extent).map proj)).isEmpty := by
  unfold tick_loc_of
  rcases hseg : segPolyInter axis.1 axis.2 ((lc t n_steps extent).map proj) with _ | ⟨p, rest⟩
  · simp [hseg]
  · simp only [hseg, List.isEmpty_cons, Bool.not_false, if_neg]
    have hne : ((p :: rest).map Pt.x) ≠ [] := by simp
    rcases hh : te ((p :: rest).map Pt.x, (p :: rest).map Pt.y) with _ | ⟨v, vs⟩
    · exact absurd hh (hte _ _ hne)
    · simp [hh]

theorem visible_nil (f : ℚ → Option ℚ) (l : List ℚ)
    (h : ∀ t ∈ l, f t = none) :
    ((l.map f).zip l).filter (fun p => p.1.isSome) = [] := by
  induction l with
  | nil => rfl
  | cons a l ih =>
    simp only [List.map_cons, List.zip_cons_cons, List.filter_cons,
      h a (List.mem_cons_self a l), Option.isSome_none]
    exact ih fun t ht => h t (List.mem_cons_of_mem a ht)

theorem foldl_min_nonneg (l : List ℚ) (a : ℚ) (ha : 0 ≤ a)
    (h : ∀ v ∈ l, 0 ≤ v) : 0 ≤ l.foldl min a := by
  induction l generalizing a with
  | nil => exact ha
  | cons b l ih =>
    exact ih (min a b) (le_min ha (h b (List.mem_cons_self b l)))
      fun v hv => h v (List.mem_cons_of_mem b hv)

theorem nanmin_nonneg (l : List ℚ) (h : ∀ v ∈ l, 0 ≤ v) : 0 ≤ nanmin l := by
  cases l with
  | nil => exact le_refl 0
  | cons a l =>
    exact foldl_min_nonneg l a (h a (List.mem_cons_self a l))
      fun v hv => h v (List.mem_cons_of_mem a hv)

/-! ### Claims -/

/-- C3: `_lambert_ticks` returns two lists of equal length; the label list
is exactly the subsequence of the input ticks whose constructed graticule
line (projected into map coordinates) intersects the border side selected
by `find_side`; non-intersecting ticks are dropped from both lists and the
surviving ticks keep their relative order (the labels form a sublist of
the input ticks). -/
theorem lambert_ticks_shape (outline : List Pt) (extent : Extent)
    (ticks : List ℚ) (t_loc : String)
    (lc : ℚ → ℕ → Extent → List Pt) (proj : Pt → Pt)
    (te : List ℚ × List ℚ → List ℚ) (locs labels : List ℚ)
    (hte : ∀ xs ys : List ℚ, xs ≠ [] → te (xs, ys) ≠ [])
    (h : lambert_ticks_impl outline extent ticks t_loc lc proj te
        = Except.ok (locs, labels)) :
    locs.length = labels.length ∧
    (∀ axis, find_side outline t_loc = Except.ok axis →
      labels = ticks.filter
        (fun t => !(segPolyInter axis.1 axis.2 ((lc t n_steps extent).map proj)).isEmpty)) ∧
    List.Sublist labels ticks := by
  obtain ⟨axis, haxis, hlab, hlocs⟩ :=
    lambert_ticks_ok_spec outline extent ticks t_loc lc proj te locs labels h
  refine ⟨by rw [hlocs, List.length_map], ?_, ?_⟩
  · intro axis' haxis'
    rw [haxis] at haxis'
    cases Except.ok.inj haxis'
    rw [hlab]
    exact List.filter_congr fun t _ =>
      tick_loc_of_isSome axis extent lc proj te hte t
  · rw [hlab]
    exact List.filter_sublist ticks

/-- Witness for C3: on the border `outline0` with the identity projection,
of the tick list `[5, 20]` only longitude `5` crosses the bottom side, and
`_lambert_ticks` keeps exactly it. -/
theorem lambert_ticks_shape_witness :
    ([5] : List ℚ).length = ([5] : List ℚ).length ∧
    (∀ axis, find_side outline0 "bottom" = Except.ok axis →
      ([5] : List ℚ) = ([5, 20] : List ℚ).filter
        (fun t =>
          !(segPolyInter axis.1 axis.2
              ((construct_line_x t n_steps extent0).map id)).isEmpty)) ∧
    List.Sublist ([5] : List ℚ) [5, 20] :=
  lambert_ticks_shape outline0 extent0 [5, 20] "bottom" construct_line_x id
    extract_x [5] [5] (fun _ _ h => h) (by with_unfolding_all rfl)

/-- If every tick's projected line misses the border side, all loop-body
results are `None` and the visibility filter empties the zipped list. -/
theorem lambert_ticks_all_invisible (outline : List Pt) (extent : Extent)
    (t_loc : String) (lc : ℚ → ℕ → Extent → List Pt) (proj : Pt → Pt)
    (te : List ℚ × List ℚ → List ℚ) (ticks : List ℚ) (axis : Pt × Pt)
    (haxis : find_side outline t_loc = Except.ok axis)
    (hvalid : ¬(t_loc ≠ "left" ∧ t_loc ≠ "bottom"))
    (hmiss : ∀ t ∈ ticks,
      segPolyInter axis.1 axis.2 ((lc t n_steps extent).map proj) = []) :
    lambert_ticks_impl outline extent ticks t_loc lc proj te
      = Except.ok ([], []) := by
  have hnone : ∀ t ∈ ticks,
      tick_loc_of axis extent lc proj te t = none := by
    intro t ht
    unfold tick_loc_of
    simp [hmiss t ht]
  unfold lambert_ticks_impl
  rw [if_neg hvalid]
  split
  · rename_i e heq
    rw [haxis] at heq
    exact absurd heq (by simp)
  · rename_i axis' heq
    rw [haxis] at heq
    cases Except.ok.inj heq
    simp only [visible_nil (tick_loc_of axis extent lc proj te) ticks hnone,
      List.filterMap_nil, List.map_nil]

/-- C9: for an empty input tick list, or when no constructed tick line
intersects the selected border side, `_lambert_ticks` returns `([], [])`
rather than raising, via the guard on the filtered visible-tick list.
(The input list is read only through `.copy()` and iteration; the
embedding is pure, so it cannot be mutated.) -/
theorem lambert_ticks_empty_result (outline : List Pt) (extent : Extent)
    (t_loc : String) (lc : ℚ → ℕ → Extent → List Pt) (proj : Pt → Pt)
    (te : List ℚ × List ℚ → List ℚ) (ticks : List ℚ)
    (hloc : t_loc = "left" ∨ t_loc = "bottom")
    (h : ticks = [] ∨ ∀ t ∈ ticks, ∀ axis,
        find_side outline t_loc = Except.ok axis →
        segPolyInter axis.1 axis.2 ((lc t n_steps extent).map proj) = []) :
    lambert_ticks_impl outline extent ticks t_loc lc proj te
      = Except.ok ([], []) := by
  rcases hloc with rfl | rfl
  · refine lambert_ticks_all_invisible outline extent "left" lc proj te ticks _
      (find_side_left outline) (by simp) ?_
    rcases h with rfl | hall
    · exact fun t ht => absurd ht (List.not_mem_nil t)
    · exact fun t ht => hall t ht _ (find_side_left outline)
  · refine lambert_ticks_all_invisible outline extent "bottom" lc proj te ticks _
      (find_side_bottom outline) (by simp) ?_
    rcases h with rfl | hall
    · exact fun t ht => absurd ht (List.not_mem_nil t)
    · exact fun t ht => hall t ht _ (find_side_bottom outline)

/-- Witness for C9: the empty tick list yields `([], [])` on the left side
of `outline0`. -/
theorem lambert_ticks_empty_result_witness :
    lambert_ticks_impl outline0 extent0 [] "left" construct_line_y id
      extract_y = Except.ok ([], []) :=
  lambert_ticks_empty_result outline0 extent0 "left" construct_line_y id
    extract_y [] (Or.inl rfl) (Or.inl rfl)

/-- C1: with `tick_location = 'bottom'` (as called by `lambert_xticks`),
the graticule line of constant longitude `t` is built by the line
constructor, projected pointwise into the axes' map projection, and the
position recorded for a surviving tick `t` is the x-coordinate of the
intersection of that projected line with the bottom side of the plot
border selected by `find_side`; with `tick_location = 'left'` (as called
by `lambert_yticks`) it is the y-coordinate of the intersection with the
left side. -/
theorem lambert_ticks_tick_position (outline : List Pt) (extent : Extent)
    (proj : Pt → Pt) (ticks locs labels : List ℚ) :
    (lambert_ticks_impl outline extent ticks "bottom" construct_line_x proj
        extract_x = Except.ok (locs, labels) →
      ∀ (i : ℕ) (t : ℚ) (p : Pt) (axis : Pt × Pt), labels[i]? = some t →
        find_side outline "bottom" = Except.ok axis →
        segPolyInter axis.1 axis.2 ((construct_line_x t n_steps extent).map proj)
          = [p] →
        locs[i]? = some p.x) ∧
    (lambert_ticks_impl outline extent ticks "left" construct_line_y proj
        extract_y = Except.ok (locs, labels) →
      ∀ (i : ℕ) (t : ℚ) (p : Pt) (axis : Pt × Pt), labels[i]? = some t →
        find_side outline "left" = Except.ok axis →
        segPolyInter axis.1 axis.2 ((construct_line_y t n_steps extent).map proj)
          = [p] →
        locs[i]? = some p.y) := by
  constructor
  · intro h i t p axis hget haxis hseg
    obtain ⟨axis0, haxis0, hlab, hlocs⟩ :=
      lambert_ticks_ok_spec outline extent ticks "bottom" construct_line_x proj
        extract_x locs labels h
    rw [haxis0] at haxis
    cases Except.ok.inj haxis
    have hf : tick_loc_of axis extent construct_line_x proj extract_x t
        = some p.x := by
      unfold tick_loc_of
      simp [hseg, extract_x]
    rw [hlocs, List.getElem?_map, hget]
    simp [hf]
  · intro h i t p axis hget haxis hseg
    obtain ⟨axis0, haxis0, hlab, hlocs⟩ :=
      lambert_ticks_ok_spec outline extent ticks "left" construct_line_y proj
        extract_y locs labels h
    rw [haxis0] at haxis
    cases Except.ok.inj haxis
    have hf : tick_loc_of axis extent construct_line_y proj extract_y t
        = some p.y := by
      unfold tick_loc_of
      simp [hseg, extract_y]
    rw [hlocs, List.getElem?_map, hget]
    simp [hf]

/-- Witness for C1: on `outline0` with the identity projection, the line
of longitude 5 meets the bottom side at `(5, 0)` and the recorded position
is `5`. -/
theorem lambert_ticks_tick_position_witness :
    ([5] : List ℚ)[0]? = some ((5 : ℚ)) :=
  (lambert_ticks_tick_position outline0 extent0 id [5] [5] [5]).1
    (by with_unfolding_all rfl) 0 5 ⟨5, 0⟩ (⟨0, 0⟩, ⟨10, 0⟩) rfl
    (by with_unfolding_all rfl) (by with_unfolding_all rfl)

/-- C2: for each valid `loc`, the axes created by `add_equal_axes` shares
the union bounding box's extent along the shared dimension (exactly its
`y0, y1` for `'left'`/`'right'`, exactly its `x0, x1` for
`'bottom'`/`'top'`), has extent `width` in the other dimension, and is
separated from the union box by exactly `pad`. -/
theorem add_equal_axes_geometry (figAxes axs : List Bbox) (pad width : ℚ) :
    (∃ nb, (add_equal_axes figAxes axs "left" pad width).2 = Except.ok nb ∧
      nb.y0 = (bboxUnion axs).y0 ∧ nb.y1 = (bboxUnion axs).y1 ∧
      nb.x1 - nb.x0 = width ∧ (bboxUnion axs).x0 - nb.x1 = pad) ∧
    (∃ nb, (add_equal_axes figAxes axs "right" pad width).2 = Except.ok nb ∧
      nb.y0 = (bboxUnion axs).y0 ∧ nb.y1 = (bboxUnion axs).y1 ∧
      nb.x1 - nb.x0 = width ∧ nb.x0 - (bboxUnion axs).x1 = pad) ∧
    (∃ nb, (add_equal_axes figAxes axs "bottom" pad width).2 = Except.ok nb ∧
      nb.x0 = (bboxUnion axs).x0 ∧ nb.x1 = (bboxUnion axs).x1 ∧
      nb.y1 - nb.y0 = width ∧ (bboxUnion axs).y0 - nb.y1 = pad) ∧
    (∃ nb, (add_equal_axes figAxes axs "top" pad width).2 = Except.ok nb ∧
      nb.x0 = (bboxUnion axs).x0 ∧ nb.x1 = (bboxUnion axs).x1 ∧
      nb.y1 - nb.y0 = width ∧ nb.y0 - (bboxUnion axs).y1 = pad) := by
  refine ⟨⟨_, rfl, rfl, rfl, by ring, by ring⟩,
    ⟨_, rfl, rfl, rfl, by ring, by ring⟩,
    ⟨_, rfl, rfl, rfl, by ring, by ring⟩,
    ⟨_, rfl, rfl, rfl, by ring, by ring⟩⟩

/-- C7: the two geometry utilities are deterministic pure functions of the
stated inputs: `add_equal_axes` computes the same new bounding box from
the same union bounding box whatever the rest of the figure, and
`find_side` returns the same segment on any two `LineString`s with the
same bounds. -/
theorem geometry_utilities_deterministic :
    (∀ (fig1 fig2 axs1 axs2 : List Bbox) (loc : String) (pad width : ℚ),
      bboxUnion axs1 = bboxUnion axs2 →
      (add_equal_axes fig1 axs1 loc pad width).2
        = (add_equal_axes fig2 axs2 loc pad width).2) ∧
    (∀ (l1 l2 : List Pt) (side : String),
      lsBounds l1 = lsBounds l2 → find_side l1 side = find_side l2 side) := by
  constructor
  · intro fig1 fig2 axs1 axs2 loc pad width h
    simp only [add_equal_axes, h]
    split_ifs <;> rfl
  · intro l1 l2 side h
    simp only [find_side, h]

/-- Witness for C7: two different axes collections with the same union
box, and two different rectangle outlines with the same bounds, give the
same results. -/
theorem geometry_utilities_deterministic_witness :
    (add_equal_axes [] [⟨0, 0, 1, 1⟩] "left" 1 2).2
      = (add_equal_axes [⟨5, 5, 6, 6⟩] [⟨0, 0, 1, 1⟩, ⟨0, 0, 1, 1⟩] "left" 1 2).2 ∧
    find_side [⟨0, 0⟩, ⟨2, 3⟩] "right"
      = find_side [⟨2, 3⟩, ⟨0, 0⟩, ⟨2, 0⟩] "right" :=
  ⟨geometry_utilities_deterministic.1 [] [⟨5, 5, 6, 6⟩] [⟨0, 0, 1, 1⟩]
      [⟨0, 0, 1, 1⟩, ⟨0, 0, 1, 1⟩] "left" 1 2 (by with_unfolding_all rfl),
    geometry_utilities_deterministic.2 [⟨0, 0⟩, ⟨2, 3⟩]
      [⟨2, 3⟩, ⟨0, 0⟩, ⟨2, 0⟩] "right" (by with_unfolding_all rfl)⟩

/-- C10: each helper validates its location string up front:
`add_equal_axes` raises exactly for a `loc` outside
`left/right/bottom/top`, and then the figure has no new axes; `find_side`
raises exactly for a `side` outside those four values; `_lambert_ticks`
raises exactly for a `tick_location` other than `'left'`/`'bottom'` (the
axes is only read, never written, by `_lambert_ticks` itself). -/
theorem location_argument_validation :
    (∀ (figAxes axs : List Bbox) (loc : String) (pad width : ℚ), axs ≠ [] →
      (isError (add_equal_axes figAxes axs loc pad width).2 = true ↔
        loc ∉ (["left", "right", "bottom", "top"] : List String)) ∧
      (loc ∉ (["left", "right", "bottom", "top"] : List String) →
        (add_equal_axes figAxes axs loc pad width).1 = figAxes)) ∧
    (∀ (ls : List Pt) (side : String),
      isError (find_side ls side) = true ↔
        side ∉ (["left", "right", "bottom", "top"] : List String)) ∧
    (∀ (outline : List Pt) (extent : Extent) (ticks : List ℚ)
        (t_loc : String) (lc : ℚ → ℕ → Extent → List Pt) (proj : Pt → Pt)
        (te : List ℚ × List ℚ → List ℚ),
      isError (lambert_ticks_impl outline extent ticks t_loc lc proj te)
          = true ↔
        t_loc ∉ (["left", "bottom"] : List String)) := by
  refine ⟨?_, ?_, ?_⟩
  · intro figAxes axs loc pad width _
    constructor
    · simp only [add_equal_axes]
      split_ifs with h1 h2 h3 h4 <;>
        simp [isError, List.mem_cons, *]
    · intro hmem
      simp only [add_equal_axes]
      split_ifs with h1 h2 h3 h4
      · exact absurd (by subst h1; decide) hmem
      · exact absurd (by subst h2; decide) hmem
      · exact absurd (by subst h3; decide) hmem
      · exact absurd (by subst h4; decide) hmem
      · rfl
  · intro ls side
    unfold find_side
    split_ifs with h h1 h2 h3 <;>
      simp [isError, List.mem_cons] <;>
      tauto
  · intro outline extent ticks t_loc lc proj te
    by_cases hl : t_loc = "left"
    · subst hl
      unfold lambert_ticks_impl
      rw [if_neg (by decide), find_side_left]
      simp [isError]
    · by_cases hb : t_loc = "bottom"
      · subst hb
        unfold lambert_ticks_impl
        rw [if_neg (by decide), find_side_bottom]
        simp [isError]
      · unfold lambert_ticks_impl
        rw [if_pos ⟨hl, hb⟩]
        simp [isError, List.mem_cons, hl, hb]

/-- Witness for C10: the invalid location `'center'` makes each helper
raise, and `add_equal_axes` leaves the figure untouched. -/
theorem location_argument_validation_witness :
    isError (add_equal_axes [] [⟨0, 0, 1, 1⟩] "center" 1 1).2 = true ∧
    (add_equal_axes [] [⟨0, 0, 1, 1⟩] "center" 1 1).1 = [] ∧
    isError (find_side [⟨0, 0⟩] "center") = true ∧
    isError (lambert_ticks_impl [] ⟨0, 0, 0, 0⟩ [] "center" construct_line_x
      id extract_x) = true :=
  ⟨((location_argument_validation.1 [] [⟨0, 0, 1, 1⟩] "center" 1 1
      (by decide)).1).mpr (by decide),
    (location_argument_validation.1 [] [⟨0, 0, 1, 1⟩] "center" 1 1
      (by decide)).2 (by decide),
    (location_argument_validation.2.1 [⟨0, 0⟩] "center").mpr (by decide),
    (location_argument_validation.2.2 [] ⟨0, 0, 0, 0⟩ [] "center"
      construct_line_x id extract_x).mpr (by decide)⟩

/-- C4: `process_data` reads exactly the two files `geo_em.d01.nc` and
`geo_em.d02.nc` under `path` (one open each, in submission order), and its
7-tuple result equals the sequential composition of `get_data` on the two
files with the d02 projection discarded. -/
theorem process_data_parallel_refinement (Proj : Type)
    (fs : String → GeoFile Proj) (path : String) :
    (process_data fs path).1 = process_data_sequential_spec fs path ∧
    (process_data fs path).2
      = [path ++ "/geo_em.d01.nc", path ++ "/geo_em.d02.nc"] ∧
    path ++ "/geo_em.d01.nc" ≠ path ++ "/geo_em.d02.nc" ∧
    (process_data fs path).2.count (path ++ "/geo_em.d01.nc") = 1 ∧
    (process_data fs path).2.count (path ++ "/geo_em.d02.nc") = 1 := by
  have hne : path ++ "/geo_em.d01.nc" ≠ path ++ "/geo_em.d02.nc" := by
    intro hcontra
    have hd := congrArg String.data hcontra
    simp only [String.data_append] at hd
    exact absurd (congrArg String.mk (List.append_cancel_left hd)) (by decide)
  refine ⟨rfl, rfl, hne, ?_, ?_⟩
  · simp [process_data, get_data, List.count_cons, hne]
  · simp [process_data, get_data, List.count_cons, Ne.symm hne]

/-- C5: the colorbar extension in `plot_domain` is a total case split on
the height data: `'both'` iff the maximum exceeds 5000 and the minimum is
negative, `'max'` iff only the former, `'min'` iff only the latter, and
`None` otherwise. -/
theorem plot_domain_extend_cases (hgt : List ℚ) :
    (plot_domain_extend hgt = some "both" ↔
      nanmax hgt > 5000 ∧ nanmin hgt < 0) ∧
    (plot_domain_extend hgt = some "max" ↔
      nanmax hgt > 5000 ∧ ¬nanmin hgt < 0) ∧
    (plot_domain_extend hgt = some "min" ↔
      ¬nanmax hgt > 5000 ∧ nanmin hgt < 0) ∧
    (plot_domain_extend hgt = none ↔
      ¬nanmax hgt > 5000 ∧ ¬nanmin hgt < 0) := by
  unfold plot_domain_extend
  by_cases h1 : nanmax hgt > 5000 <;> by_cases h2 : nanmin hgt < 0 <;>
    simp [h1, h2]

/-- C8: every height array produced by `get_data` is elementwise
non-negative (it is `np.maximum(HGT_M, 0)`), so on such data the
`nanmin < 0` branches of `plot_domain` are unreachable: the extension is
never `'min'` nor `'both'`. -/
theorem get_data_hgt_nonneg (Proj : Type) (fs : String → GeoFile Proj)
    (file : String) :
    (∀ row ∈ (get_data fs file).1.2.2.2, ∀ v ∈ row, 0 ≤ v) ∧
    plot_domain_extend (get_data fs file).1.2.2.2.flatten ≠ some "min" ∧
    plot_domain_extend (get_data fs file).1.2.2.2.flatten ≠ some "both" := by
  have hrows : ∀ row ∈ (get_data fs file).1.2.2.2, ∀ v ∈ row, 0 ≤ v := by
    intro row hrow v hv
    simp only [get_data, List.mem_map] at hrow
    obtain ⟨raw, _, hraw⟩ := hrow
    rw [← hraw] at hv
    simp only [List.mem_map] at hv
    obtain ⟨h0, _, hh0⟩ := hv
    rw [← hh0]
    exact le_max_right h0 0
  have hmin : 0 ≤ nanmin (get_data fs file).1.2.2.2.flatten := by
    refine nanmin_nonneg _ fun v hv => ?_
    obtain ⟨row, hrow, hvrow⟩ := List.mem_flatten.mp hv
    exact hrows row hrow v hvrow
  refine ⟨hrows, ?_, ?_⟩ <;>
    · simp only [plot_domain_extend]
      split_ifs with h1 h2 h3 <;> simp_all <;> exact absurd hmin (by linarith)

/-- C6: `mark_inset` returns exactly three patches: a rectangle marking
the inset's view limits seen through the parent's data transform, added
to the parent axes, and two connectors between the inset's bbox and that
rectangle, added to the inset axes with clipping disabled; no other patch
is added to either axes. -/
theorem mark_inset_patch_effects (Tr : Type)
    (parentPatches insetPatches : List (Patch Tr)) (insetViewLim : Bbox)
    (parentTransData : Tr) (insetBbox : Bbox) (loc1a loc1b loc2a loc2b : ℤ) :
    (mark_inset parentPatches insetPatches insetViewLim parentTransData
        insetBbox loc1a loc1b loc2a loc2b).1
      = parentPatches ++
        [(mark_inset parentPatches insetPatches insetViewLim parentTransData
            insetBbox loc1a loc1b loc2a loc2b).2.2.1] ∧
    (mark_inset parentPatches insetPatches insetViewLim parentTransData
        insetBbox loc1a loc1b loc2a loc2b).2.1
      = insetPatches ++
        [(mark_inset parentPatches insetPatches insetViewLim parentTransData
            insetBbox loc1a loc1b loc2a loc2b).2.2.2.1,
          (mark_inset parentPatches insetPatches insetViewLim parentTransData
            insetBbox loc1a loc1b loc2a loc2b).2.2.2.2] ∧
    (mark_inset parentPatches insetPatches insetViewLim parentTransData
        insetBbox loc1a loc1b loc2a loc2b).2.2.1.kind
      = PatchKind.bboxPatch ⟨insetViewLim, parentTransData⟩ ∧
    (mark_inset parentPatches insetPatches insetViewLim parentTransData
        insetBbox loc1a loc1b loc2a loc2b).2.2.2.1.kind
      = PatchKind.bboxConnector insetBbox ⟨insetViewLim, parentTransData⟩
          loc1a loc1b ∧
    (mark_inset parentPatches insetPatches insetViewLim parentTransData
        insetBbox loc1a loc1b loc2a loc2b).2.2.2.2.kind
      = PatchKind.bboxConnector insetBbox ⟨insetViewLim, parentTransData⟩
          loc2a loc2b ∧
    (mark_inset parentPatches insetPatches insetViewLim parentTransData
        insetBbox loc1a loc1b loc2a loc2b).2.2.2.1.clip_on = false ∧
    (mark_inset parentPatches insetPatches insetViewLim parentTransData
        insetBbox loc1a loc1b loc2a loc2b).2.2.2.2.clip_on = false :=
  ⟨rfl, rfl, rfl, rfl, rfl, rfl, rfl⟩

end WRFShowDomain
